import Mathlib

/-!
Shallow embedding of the reconciliation core of the Smart-Inventory
repository (src/vision_processor.py and src/app_api.py), with theorems
settling the specification claims about it.

Conventions of the embedding:
* Python `dict` iteration order is insertion order, so an inventory
  snapshot is an association list `List (Int × ItemData)` in catalog order.
* Python integers are `Int`; list multiplicities are `Nat` cast to `Int`
  where the source compares them with stock counts.
* `time.strftime(...)` is an ambient clock read; it is passed as an
  explicit `String` parameter `t` to the embedded functions.
* `random.choice` / `random.random()` draws in `process_vision_frame`
  are passed as explicit parameters (`target_id`, `action`, `coin`).
-/

/-- One value of the per-item dict stored in the inventory state of
vision_processor.py: `{"name", "min_stock", "current_stock", "alert_status"}`. -/
structure ItemData where
  name : String
  min_stock : Int
  current_stock : Int
  alert_status : String
deriving DecidableEq, Repr

/-- The transaction dict built in `process_frame_update`
(vision_processor.py lines 121-127): `item_id` is `str(item_id)`. -/
structure Transaction where
  item_id : String
  item_name : String
  timestamp : String
  action : String
  quantity_change : Int
deriving DecidableEq, Repr

/-- An inventory snapshot: the `Dict[int, Dict]` of vision_processor.py,
kept in insertion (catalog) order. -/
abbrev InventoryState := List (Int × ItemData)

/-- The alert computation inlined in `process_frame_update`
(vision_processor.py lines 110-114): start from `"OK"`, overwrite with
`"LOW"` when `stock <= min_stock`, then with `"CRITICAL"` when `stock == 0`. -/
def alertStatus (stock min_stock : Int) : String :=
  let s := "OK"
  let s := if stock ≤ min_stock then "LOW" else s
  let s := if stock = 0 then "CRITICAL" else s
  s

/-- The Alert Evaluator written from the specification words (section 4.1):
Critical if stock is zero, else Low if stock is at most the minimum, else Ok. -/
def evaluate (stock min_stock : Int) : String :=
  if stock = 0 then "CRITICAL"
  else if stock ≤ min_stock then "LOW"
  else "OK"

/-- The observed multiplicity of an identifier:
`tracked_ids.count(item_id)` (vision_processor.py line 97), as an `Int`. -/
def observedCount (tracked_ids : List Int) (id : Int) : Int :=
  (tracked_ids.count id : Nat)

/-- The update applied to one changed item's record
(vision_processor.py lines 107-116): stock becomes the observed count and
the alert status is recomputed. -/
def applyChange (tracked_ids : List Int) (id : Int) (d : ItemData) : ItemData :=
  { d with
    current_stock := observedCount tracked_ids id
    alert_status := alertStatus (observedCount tracked_ids id) d.min_stock }

/-- The transaction record built for a changed item
(vision_processor.py lines 120-127), from the item's pre-update record `d`. -/
def mkTransaction (tracked_ids : List Int) (t : String) (id : Int) (d : ItemData) :
    Transaction :=
  let change := observedCount tracked_ids id - d.current_stock
  { item_id := toString id
    item_name := d.name
    timestamp := t
    action := if change > 0 then "ADDED" else "REMOVED"
    quantity_change := (change.natAbs : Int) }

/-- The body of the `for item_id, item_data in new_state.items()` loop of
`process_frame_update` (vision_processor.py lines 99-129), threading the
`transaction` variable: only the first changed item creates a transaction
(`if transaction is None`, line 119). -/
def processItems (tracked_ids : List Int) (t : String) :
    InventoryState → Option Transaction → InventoryState × Option Transaction
  | [], tx => ([], tx)
  | (id, d) :: rest, tx =>
    if observedCount tracked_ids id ≠ d.current_stock then
      let d' := applyChange tracked_ids id d
      let tx1 := if tx.isNone then some (mkTransaction tracked_ids t id d) else tx
      let r := processItems tracked_ids t rest tx1
      ((id, d') :: r.1, r.2)
    else
      let r := processItems tracked_ids t rest tx
      ((id, d) :: r.1, r.2)

/-- `process_frame_update(current_state, tracked_ids)`
(vision_processor.py lines 89-131): copies the state, walks the items in
catalog order, and returns the new state with at most one transaction.
The clock string `t` stands for `time.strftime("%Y-%m-%d %H:%M:%S")`. -/
def process_frame_update (current_state : InventoryState) (tracked_ids : List Int)
    (t : String) : InventoryState × Option Transaction :=
  processItems tracked_ids t current_state none

/-- The items of a snapshot whose observed count differs from their stored
stock (the `new_count != old_count` test of vision_processor.py line 103). -/
def changedItems (tracked_ids : List Int) (S : InventoryState) : InventoryState :=
  S.filter fun p => decide (observedCount tracked_ids p.1 ≠ p.2.current_stock)

theorem alertStatus_eq_evaluate (s m : Int) : alertStatus s m = evaluate s m := by
  unfold alertStatus evaluate
  by_cases h0 : s = 0 <;> by_cases h1 : s ≤ m <;> simp [h0, h1]

/-- A record of the in-memory `inventory_db` of app_api.py (class
`InventoryItem`, lines 18-23). -/
structure InventoryItem where
  id : Int
  name : String
  min_stock : Int
  current_stock : Int
  alert_status : String
deriving DecidableEq, Repr

/-- A record of the in-memory `transaction_history` of app_api.py (class
`Transaction`, lines 25-30); named apart from the vision_processor dict. -/
structure ApiTransaction where
  item_id : Int
  item_name : String
  timestamp : String
  action : String
  quantity_change : Int
deriving DecidableEq, Repr

/-- The mutable module-level state of app_api.py: `inventory_db` (in
insertion order) and `transaction_history`. -/
structure ApiState where
  inventory_db : List (Int × InventoryItem)
  transaction_history : List ApiTransaction
deriving DecidableEq, Repr

/-- In-place update of one entry of `inventory_db`. -/
def updateDb (db : List (Int × InventoryItem)) (id : Int) (item : InventoryItem) :
    List (Int × InventoryItem) :=
  db.map fun p => if p.1 = id then (p.1, item) else p

/-- `process_vision_frame()` of app_api.py (lines 41-90). The random draws
are explicit parameters: `target_id` (`random.choice(SIMULATED_DETECTED_IDS)`),
`action` (`random.choice(["ADD", "REMOVE", "NONE"])`), and `coin`
(`random.random() < 0.3`); `t` is the `time.strftime` clock read. The source
indexes `inventory_db[target_id]` with a `target_id` always drawn from the
catalog keys; the embedding leaves the state unchanged when the lookup
misses, a case the source never reaches. -/
def process_vision_frame (st : ApiState) (target_id : Int) (action : String)
    (coin : Bool) (t : String) : ApiState :=
  if action ≠ "NONE" ∧ coin then
    match st.inventory_db.lookup target_id with
    | none => st
    | some item =>
      let change : Int := if action = "ADD" then 1 else -1
      let ca := if action = "REMOVE" ∧ item.current_stock ≤ 0 then ((0 : Int), "NONE")
                else (change, action)
      if ca.1 ≠ 0 then
        let item' := { item with
          current_stock := item.current_stock + ca.1
          alert_status := alertStatus (item.current_stock + ca.1) item.min_stock }
        { inventory_db := updateDb st.inventory_db target_id item'
          transaction_history := st.transaction_history ++
            [{ item_id := item.id
               item_name := item.name
               timestamp := t
               action := ca.2 ++ "ED"
               quantity_change := ca.1 }] }
      else st
  else st

/-- The `GET /inventory/status` handler (app_api.py lines 99-104): it first
calls `process_vision_frame()` and then returns `list(inventory_db.values())`.
The returned list is paired with the module state after the call. -/
def get_inventory_status (st : ApiState) (target_id : Int) (action : String)
    (coin : Bool) (t : String) : List InventoryItem × ApiState :=
  let st' := process_vision_frame st target_id action coin t
  (st'.inventory_db.map Prod.snd, st')

/-- The `GET /inventory/transactions` handler (app_api.py lines 106-109):
returns `transaction_history[-10:]`, leaving the module state as it was. -/
def get_transaction_history (st : ApiState) : List ApiTransaction × ApiState :=
  (st.transaction_history.drop (st.transaction_history.length - 10), st)

/-- The per-item snapshot transform of one cycle: the record is untouched
when the observed count equals the stored stock, otherwise stock and alert
are rewritten by `applyChange`. -/
def itemUpdate (tracked_ids : List Int) (p : Int × ItemData) : Int × ItemData :=
  if observedCount tracked_ids p.1 ≠ p.2.current_stock then
    (p.1, applyChange tracked_ids p.1 p.2)
  else p

theorem processItems_fst (tracked_ids : List Int) (t : String) (S : InventoryState)
    (tx : Option Transaction) :
    (processItems tracked_ids t S tx).1 = S.map (itemUpdate tracked_ids) := by
  induction S generalizing tx with
  | nil => simp [processItems]
  | cons p rest ih =>
    obtain ⟨id, d⟩ := p
    by_cases h : observedCount tracked_ids id ≠ d.current_stock
    · simp [processItems, h, itemUpdate, ih]
    · simp [processItems, h, itemUpdate, ih]

theorem processItems_snd (tracked_ids : List Int) (t : String) (S : InventoryState) :
    ∀ tx : Option Transaction,
      (processItems tracked_ids t S tx).2 =
        match tx with
        | some x => some x
        | none => (changedItems tracked_ids S).head?.map
            fun p => mkTransaction tracked_ids t p.1 p.2 := by
  induction S with
  | nil => intro tx; cases tx <;> simp [processItems, changedItems]
  | cons p rest ih =>
    intro tx
    obtain ⟨id, d⟩ := p
    by_cases h : observedCount tracked_ids id ≠ d.current_stock
    · cases tx with
      | none =>
        simp only [processItems, if_pos h, Option.isNone_none, if_true]
        rw [ih]
        simp [changedItems, h]
      | some x =>
        simp only [processItems, if_pos h, Option.isNone_some, if_false]
        rw [ih]
        simp
    · cases tx with
      | none =>
        simp only [processItems, if_neg h]
        rw [ih]
        simp [changedItems, h]
      | some x =>
        simp only [processItems, if_neg h]
        rw [ih]

/-- The default inventory of the repository
(`INITIAL_INVENTORY_CONFIG` with `alert_status = "OK"`, as built by
`load_inventory_state` on first run). -/
def exState : InventoryState :=
  [(1, ⟨"Laptop Box", 2, 5, "OK"⟩),
   (2, ⟨"Accessory Kit", 5, 10, "OK"⟩),
   (3, ⟨"Monitor Stand", 1, 3, "OK"⟩)]

/-- The initial module state of app_api.py: `inventory_db` built from
`INVENTORY_ITEMS` with `alert_status="OK"`, empty `transaction_history`. -/
def apiState₀ : ApiState :=
  { inventory_db :=
      [(1, ⟨1, "Laptop Box", 2, 5, "OK"⟩),
       (2, ⟨2, "Accessory Kit", 5, 10, "OK"⟩),
       (3, ⟨3, "Monitor Stand", 1, 3, "OK"⟩)],
    transaction_history := [] }

/-- A cycle on a snapshot already agreeing with the observation changes
nothing and records no transaction. -/
theorem pfu_converged (S : InventoryState) (O : List Int) (t : String)
    (h : ∀ p ∈ S, observedCount O p.1 = p.2.current_stock) :
    process_frame_update S O t = (S, none) := by
  have hfst : (process_frame_update S O t).1 = S := by
    rw [process_frame_update, processItems_fst]
    have : ∀ p ∈ S, itemUpdate O p = p := by
      intro p hp
      simp [itemUpdate, h p hp]
    rw [List.map_congr_left this]
    simp
  have hchanged : changedItems O S = [] := by
    rw [changedItems, List.filter_eq_nil_iff]
    intro p hp
    simp [h p hp]
  have hsnd : (process_frame_update S O t).2 = none := by
    rw [process_frame_update, processItems_snd, hchanged]
    rfl
  exact Prod.ext hfst hsnd

/-- C1 counterexample: with the default inventory and an observation holding
three occurrences of id 3, items 1 and 2 both change, yet the cycle returns
a single transaction, not two. -/
theorem C1_counterexample :
    (changedItems [3, 3, 3] exState).length = 2 ∧
    (process_frame_update exState [3, 3, 3] "2024-05-01 10:00:00").2.toList.length = 1 ∧
    (process_frame_update exState [3, 3, 3] "2024-05-01 10:00:00").2.toList.length ≠
      (changedItems [3, 3, 3] exState).length := by
  decide

/-- C1 (amended): a reconciliation cycle records at most one transaction —
none when no item changed, and exactly the transaction of the first changed
item in catalog order otherwise. -/
theorem C1_first_changed_item_only (S : InventoryState) (O : List Int) (t : String) :
    (process_frame_update S O t).2 =
      (changedItems O S).head?.map (fun p => mkTransaction O t p.1 p.2) ∧
    (process_frame_update S O t).2.toList.length = min 1 (changedItems O S).length := by
  have h := processItems_snd O t S none
  refine ⟨h, ?_⟩
  rw [process_frame_update, h]
  cases changedItems O S with
  | nil => simp
  | cons q qs => simp

/-- C4 counterexample: with the default inventory and an empty observation,
item 2's observed count differs from its stock, yet no transaction for item
2 is constructed — the only transaction is item 1's. -/
theorem C4_counterexample :
    observedCount [] 2 ≠ (10 : Int) ∧
    (2, (⟨"Accessory Kit", 5, 10, "OK"⟩ : ItemData)) ∈ exState ∧
    (process_frame_update exState [] "2024-05-01 10:00:00").2.map Transaction.item_id =
      some "1" ∧
    ∀ tx ∈ (process_frame_update exState [] "2024-05-01 10:00:00").2.toList,
      tx.item_id ≠ "2" := by
  decide

/-- C4 (amended): per item, a zero delta leaves the record untouched and a
nonzero delta sets the stock to the observed count with the alert tier
recomputed; a transaction — action `ADDED` for a positive delta, `REMOVED`
for a negative one, magnitude the absolute delta — is constructed only for
the first changed item in catalog order. -/
theorem C4_delta_rule (S : InventoryState) (O : List Int) (t : String) :
    (process_frame_update S O t).1 = S.map (itemUpdate O) ∧
    ∀ tx ∈ (process_frame_update S O t).2.toList,
      ∃ p, p ∈ changedItems O S ∧
        tx.item_id = toString p.1 ∧
        tx.item_name = p.2.name ∧
        tx.action =
          (if 0 < observedCount O p.1 - p.2.current_stock then "ADDED" else "REMOVED") ∧
        tx.quantity_change =
          ((observedCount O p.1 - p.2.current_stock).natAbs : Int) := by
  refine ⟨processItems_fst O t S none, ?_⟩
  intro tx htx
  rw [process_frame_update, processItems_snd] at htx
  cases hh : (changedItems O S).head? with
  | none => rw [hh] at htx; simp at htx
  | some p =>
    rw [hh] at htx
    simp at htx
    refine ⟨p, List.mem_of_mem_head? (by rw [hh]; exact Option.mem_def.mpr rfl), ?_⟩
    subst htx
    refine ⟨rfl, rfl, ?_, rfl⟩
    simp [mkTransaction, gt_iff_lt, sub_pos]

/-- C7 counterexample: two invocations on the same snapshot and observation,
made at different clock readings, return different results — the recorded
transaction carries the wall-clock timestamp. -/
theorem C7_counterexample :
    process_frame_update exState [] "2024-05-01 10:00:00" ≠
      process_frame_update exState [] "2024-05-01 10:00:01" := by
  decide

/-- A transaction with its wall-clock timestamp field blanked. -/
def eraseTimestamp (tx : Transaction) : Transaction :=
  { tx with timestamp := "" }

/-- C7 (amended): reconciliation is deterministic in everything but the
transaction's timestamp field: the updated snapshot and every other
transaction field depend only on the snapshot and the observation, and the
timestamp equals the invocation's clock reading. -/
theorem C7_deterministic_up_to_timestamp (S : InventoryState) (O : List Int)
    (t₁ t₂ : String) :
    (process_frame_update S O t₁).1 = (process_frame_update S O t₂).1 ∧
    (process_frame_update S O t₁).2.map eraseTimestamp =
      (process_frame_update S O t₂).2.map eraseTimestamp ∧
    ∀ tx ∈ (process_frame_update S O t₁).2.toList, tx.timestamp = t₁ := by
  refine ⟨?_, ?_, ?_⟩
  · rw [process_frame_update, process_frame_update, processItems_fst, processItems_fst]
  · rw [process_frame_update, process_frame_update, processItems_snd, processItems_snd]
    cases (changedItems O S).head? with
    | none => rfl
    | some p => simp [mkTransaction, eraseTimestamp]
  · intro tx htx
    rw [process_frame_update, processItems_snd] at htx
    cases hh : (changedItems O S).head? with
    | none => rw [hh] at htx; simp at htx
    | some p =>
      rw [hh] at htx
      simp at htx
      subst htx
      rfl

/-- The alert-tier invariant of the spec data model: every record's tier is
the pure evaluation of its stock against its minimum threshold. -/
def tierInvariant (S : InventoryState) : Prop :=
  ∀ p ∈ S, p.2.alert_status = evaluate p.2.current_stock p.2.min_stock

/-- The alert-tier invariant for the in-memory `inventory_db` of app_api.py. -/
def apiTierInvariant (db : List (Int × InventoryItem)) : Prop :=
  ∀ p ∈ db, p.2.alert_status = evaluate p.2.current_stock p.2.min_stock

instance (S : InventoryState) : Decidable (tierInvariant S) :=
  List.decidableBAll _ S

instance (db : List (Int × InventoryItem)) : Decidable (apiTierInvariant db) :=
  List.decidableBAll _ db

theorem updateDb_member {db : List (Int × InventoryItem)} {tid : Int}
    {item : InventoryItem} {p : Int × InventoryItem} (h : p ∈ updateDb db tid item) :
    p ∈ db ∨ p.2 = item := by
  unfold updateDb at h
  obtain ⟨q, hq, hpq⟩ := List.mem_map.mp h
  by_cases he : q.1 = tid
  · right
    rw [← hpq]
    simp [he]
  · left
    rw [← hpq]
    simp only [if_neg he]
    exact hq

theorem pvf_member_cases (st : ApiState) (tid : Int) (act : String) (coin : Bool)
    (ts : String) :
    ∀ p ∈ (process_vision_frame st tid act coin ts).inventory_db,
      p ∈ st.inventory_db ∨
      ∃ item : InventoryItem, st.inventory_db.lookup tid = some item ∧
        ∃ c : Int, c ≠ 0 ∧
          p.2 = { item with
            current_stock := item.current_stock + c
            alert_status := alertStatus (item.current_stock + c) item.min_stock } := by
  intro p hp
  simp only [process_vision_frame] at hp
  split at hp
  · split at hp
    · exact Or.inl hp
    · rename_i item hl
      split at hp
      · rw [if_neg (by simp)] at hp
        exact Or.inl hp
      · split at hp
        · split at hp
          · have hp' : p ∈ updateDb st.inventory_db tid
                { item with
                  current_stock := item.current_stock + (1 : Int)
                  alert_status := alertStatus (item.current_stock + 1) item.min_stock } := hp
            rcases updateDb_member hp' with hq | hq
            · exact Or.inl hq
            · exact Or.inr ⟨item, hl, 1, by decide, hq⟩
          · exact Or.inl hp
        · split at hp
          · have hp' : p ∈ updateDb st.inventory_db tid
                { item with
                  current_stock := item.current_stock + (-1 : Int)
                  alert_status := alertStatus (item.current_stock + (-1)) item.min_stock } := hp
            rcases updateDb_member hp' with hq | hq
            · exact Or.inl hq
            · exact Or.inr ⟨item, hl, -1, by decide, hq⟩
          · exact Or.inl hp
  · exact Or.inl hp

/-- C2: the alert tier is never stale — if every record of the input
snapshot carries the tier `evaluate(stock, min_stock)`, then so does every
record of the snapshot a reconciliation cycle returns, and likewise for the
in-memory `inventory_db` across `process_vision_frame`. -/
theorem C2_alert_tier_invariant (S : InventoryState) (O : List Int) (t : String)
    (st : ApiState) (tid : Int) (act : String) (coin : Bool) (ts : String) :
    (tierInvariant S → tierInvariant (process_frame_update S O t).1) ∧
    (apiTierInvariant st.inventory_db →
      apiTierInvariant (process_vision_frame st tid act coin ts).inventory_db) := by
  constructor
  · intro hS p hp
    rw [process_frame_update, processItems_fst] at hp
    obtain ⟨q, hq, rfl⟩ := List.mem_map.mp hp
    by_cases h : observedCount O q.1 ≠ q.2.current_stock
    · simp [itemUpdate, h, applyChange, alertStatus_eq_evaluate]
    · simpa [itemUpdate, h] using hS q hq
  · intro hdb p hp
    rcases pvf_member_cases st tid act coin ts p hp with hmem | ⟨item, _, c, _, hpe⟩
    · exact hdb p hmem
    · rw [hpe]
      exact alertStatus_eq_evaluate _ _

theorem C2_witness :
    tierInvariant (process_frame_update exState [1, 1, 1] "2024-05-01 10:00:00").1 ∧
    apiTierInvariant
      (process_vision_frame apiState₀ 1 "REMOVE" true "2024-05-01 10:00:00").inventory_db := by
  have h := C2_alert_tier_invariant exState [1, 1, 1] "2024-05-01 10:00:00"
    apiState₀ 1 "REMOVE" true "2024-05-01 10:00:00"
  exact ⟨h.1 (by decide), h.2 (by decide)⟩

theorem lookup_mem :
    ∀ {db : List (Int × InventoryItem)} {tid : Int} {item : InventoryItem},
      db.lookup tid = some item → (tid, item) ∈ db := by
  intro db
  induction db with
  | nil =>
    intro tid item h
    simp [List.lookup] at h
  | cons q rest ih =>
    intro tid item h
    obtain ⟨k, v⟩ := q
    cases hbe : (tid == k) with
    | true =>
      simp only [List.lookup, hbe] at h
      have hk : tid = k := by simpa using hbe
      have hv : v = item := by simpa using h
      rw [hk, hv]
      exact List.mem_cons_self _ _
    | false =>
      simp only [List.lookup, hbe] at h
      exact List.mem_cons_of_mem _ (ih h)

/-- Stocks of the vision_processor snapshot are all non-negative. -/
def nonnegStocks (S : InventoryState) : Prop :=
  ∀ p ∈ S, 0 ≤ p.2.current_stock

/-- Stocks of the app_api `inventory_db` are all non-negative. -/
def apiNonnegStocks (db : List (Int × InventoryItem)) : Prop :=
  ∀ p ∈ db, 0 ≤ p.2.current_stock

instance (S : InventoryState) : Decidable (nonnegStocks S) :=
  List.decidableBAll _ S

instance (db : List (Int × InventoryItem)) : Decidable (apiNonnegStocks db) :=
  List.decidableBAll _ db

/-- C5: no committed snapshot holds a negative stock — a reconciliation
cycle maps a snapshot with non-negative stocks to one with non-negative
stocks, and `process_vision_frame` (whose action parameter ranges over the
source's `["ADD", "REMOVE", "NONE"]`) preserves non-negativity of the
in-memory `inventory_db`. -/
theorem C5_no_negative_stock (S : InventoryState) (O : List Int) (t : String)
    (st : ApiState) (tid : Int) (act : String) (coin : Bool) (ts : String) :
    (nonnegStocks S → nonnegStocks (process_frame_update S O t).1) ∧
    ((act = "ADD" ∨ act = "REMOVE" ∨ act = "NONE") → apiNonnegStocks st.inventory_db →
      apiNonnegStocks (process_vision_frame st tid act coin ts).inventory_db) := by
  constructor
  · intro hS p hp
    rw [process_frame_update, processItems_fst] at hp
    obtain ⟨q, hq, rfl⟩ := List.mem_map.mp hp
    by_cases h : observedCount O q.1 ≠ q.2.current_stock
    · simp only [itemUpdate, if_pos h, applyChange]
      exact Int.natCast_nonneg _
    · simpa [itemUpdate, h] using hS q hq
  · intro hAct hdb p hp
    simp only [process_vision_frame] at hp
    split at hp
    · rename_i hcond
      split at hp
      · exact hdb p hp
      · rename_i item hl
        have hitem : (0 : Int) ≤ item.current_stock := hdb (tid, item) (lookup_mem hl)
        split at hp
        · rw [if_neg (by simp)] at hp
          exact hdb p hp
        · rename_i hno
          split at hp
          · split at hp
            · have hp' : p ∈ updateDb st.inventory_db tid
                  { item with
                    current_stock := item.current_stock + (1 : Int)
                    alert_status := alertStatus (item.current_stock + 1) item.min_stock } := hp
              rcases updateDb_member hp' with hq | hq
              · exact hdb p hq
              · have hs : p.2.current_stock = item.current_stock + 1 := by rw [hq]
                omega
            · exact hdb p hp
          · rename_i hadd
            have hrem : act = "REMOVE" := by
              rcases hAct with h1 | h1 | h1
              · exact absurd h1 hadd
              · exact h1
              · exact absurd h1 hcond.1
            split at hp
            · have hpos : (0 : Int) < item.current_stock := by
                by_contra hle
                exact hno ⟨hrem, by omega⟩
              have hp' : p ∈ updateDb st.inventory_db tid
                  { item with
                    current_stock := item.current_stock + (-1 : Int)
                    alert_status := alertStatus (item.current_stock + (-1)) item.min_stock } := hp
              rcases updateDb_member hp' with hq | hq
              · exact hdb p hq
              · have hs : p.2.current_stock = item.current_stock + (-1) := by rw [hq]
                omega
            · exact hdb p hp
    · exact hdb p hp

theorem C5_witness :
    nonnegStocks (process_frame_update exState [] "2024-05-01 10:00:00").1 ∧
    apiNonnegStocks
      (process_vision_frame apiState₀ 2 "REMOVE" true "2024-05-01 10:00:00").inventory_db := by
  have h := C5_no_negative_stock exState [] "2024-05-01 10:00:00"
    apiState₀ 2 "REMOVE" true "2024-05-01 10:00:00"
  exact ⟨h.1 (by decide), h.2 (Or.inr (Or.inl rfl)) (by decide)⟩

/-- C6: reconciliation is idempotent for a fixed observation — replaying
the same observation on the snapshot a cycle returned changes nothing and
records no transaction, whatever the two clock readings were. -/
theorem C6_idempotent (S : InventoryState) (O : List Int) (t t' : String) :
    process_frame_update (process_frame_update S O t).1 O t' =
      ((process_frame_update S O t).1, none) := by
  apply pfu_converged
  intro p hp
  rw [process_frame_update, processItems_fst] at hp
  obtain ⟨q, hq, rfl⟩ := List.mem_map.mp hp
  by_cases h : observedCount O q.1 ≠ q.2.current_stock
  · simp [itemUpdate, if_pos h, applyChange]
  · simp only [itemUpdate, if_neg h]
    exact not_ne_iff.mp h

theorem processItems_count_congr (O O' : List Int) (t : String) :
    ∀ (S : InventoryState) (tx : Option Transaction),
      (∀ p ∈ S, observedCount O p.1 = observedCount O' p.1) →
      processItems O t S tx = processItems O' t S tx := by
  intro S
  induction S with
  | nil => intro tx h; rfl
  | cons p rest ih =>
    intro tx h
    obtain ⟨id, d⟩ := p
    have hid : observedCount O id = observedCount O' id := h (id, d) (List.mem_cons_self _ _)
    have hrest : ∀ q ∈ rest, observedCount O q.1 = observedCount O' q.1 :=
      fun q hq => h q (List.mem_cons_of_mem _ hq)
    have h1 : applyChange O id d = applyChange O' id d := by
      simp [applyChange, hid]
    have h2 : mkTransaction O t id d = mkTransaction O' t id d := by
      simp [mkTransaction, hid]
    by_cases hc : observedCount O id ≠ d.current_stock
    · have hc' : observedCount O' id ≠ d.current_stock := by rw [← hid]; exact hc
      simp only [processItems, if_pos hc, if_pos hc', h1, h2]
      rw [ih _ hrest]
    · have hc' : ¬observedCount O' id ≠ d.current_stock := by rw [← hid]; exact hc
      simp only [processItems, if_neg hc, if_neg hc']
      rw [ih _ hrest]

/-- C8: unknown identifiers are ignored, not auto-provisioned — a cycle
returns a snapshot with exactly the catalog's identifiers, and filtering
the observation down to catalog identifiers does not change the result. -/
theorem C8_unknown_ids_ignored (S : InventoryState) (O : List Int) (t : String) :
    (process_frame_update S O t).1.map Prod.fst = S.map Prod.fst ∧
    process_frame_update S (O.filter fun x => decide (x ∈ S.map Prod.fst)) t =
      process_frame_update S O t := by
  constructor
  · rw [process_frame_update, processItems_fst, List.map_map]
    apply List.map_congr_left
    intro p hp
    by_cases h : observedCount O p.1 ≠ p.2.current_stock <;> simp [itemUpdate, h]
  · rw [process_frame_update, process_frame_update]
    apply processItems_count_congr
    intro p hp
    unfold observedCount
    congr 1
    exact List.count_filter (decide_eq_true (List.mem_map_of_mem Prod.fst hp))

/-- C9 counterexample: the observation `[99, 99]` holds no identifier of the
default catalog, yet the cycle is not an all-zero-delta one — it records a
transaction and changes the snapshot (all stocks drain to the observed 0). -/
theorem C9_counterexample :
    observedCount [99, 99] 1 = 0 ∧ observedCount [99, 99] 2 = 0 ∧
    observedCount [99, 99] 3 = 0 ∧
    (process_frame_update exState [99, 99] "2024-05-01 10:00:00").2 ≠ none ∧
    (process_frame_update exState [99, 99] "2024-05-01 10:00:00").1 ≠ exState := by
  decide

/-- C9 (amended): an observation with no recognizable identifiers is valid
input — every stock in the returned snapshot is the observed zero, and the
cycle records no transaction and leaves the snapshot unchanged exactly when
every stored stock was already zero. -/
theorem C9_unrecognized_observation (S : InventoryState) (O : List Int) (t : String)
    (hO : ∀ p ∈ S, observedCount O p.1 = 0) :
    (∀ p ∈ (process_frame_update S O t).1, p.2.current_stock = 0) ∧
    ((∀ p ∈ S, p.2.current_stock = 0) → process_frame_update S O t = (S, none)) ∧
    ((process_frame_update S O t).2 = none → ∀ p ∈ S, p.2.current_stock = 0) := by
  refine ⟨?_, ?_, ?_⟩
  · intro p hp
    rw [process_frame_update, processItems_fst] at hp
    obtain ⟨q, hq, rfl⟩ := List.mem_map.mp hp
    by_cases h : observedCount O q.1 ≠ q.2.current_stock
    · simp only [itemUpdate, if_pos h, applyChange]
      exact hO q hq
    · have heq : observedCount O q.1 = q.2.current_stock := not_ne_iff.mp h
      simp only [itemUpdate, if_neg h]
      rw [← heq]
      exact hO q hq
  · intro hz
    apply pfu_converged
    intro p hp
    rw [hO p hp, hz p hp]
  · intro hn p hp
    rw [process_frame_update, processItems_snd] at hn
    have h0 : (changedItems O S).head? = none := by
      cases hh : (changedItems O S).head? with
      | none => rfl
      | some q =>
        rw [hh] at hn
        simp at hn
    have hnil : changedItems O S = [] := List.head?_eq_none_iff.mp h0
    rw [changedItems, List.filter_eq_nil_iff] at hnil
    have heq := hnil p hp
    simp at heq
    rw [← heq, hO p hp]

/-- An already-drained catalog: both stocks zero, tiers Critical. -/
def zState : InventoryState :=
  [(1, ⟨"Laptop Box", 2, 0, "CRITICAL"⟩), (2, ⟨"Accessory Kit", 5, 0, "CRITICAL"⟩)]

theorem C9_witness :
    observedCount [42, 42] 1 = 0 ∧ observedCount [42, 42] 2 = 0 ∧
    process_frame_update zState [42, 42] "2024-05-01 10:00:00" = (zState, none) := by
  have h := C9_unrecognized_observation zState [42, 42] "2024-05-01 10:00:00" (by decide)
  exact ⟨by decide, by decide, h.2.1 (by decide)⟩

/-- C3 counterexample: one call of the `GET /inventory/status` handler, with
the random draws set to a successful `REMOVE` of item 1, leaves the module
state different from what it was — the read mutated the store and the log. -/
theorem C3_counterexample :
    (get_inventory_status apiState₀ 1 "REMOVE" true "2024-05-01 10:00:00").2 ≠
      apiState₀ := by
  decide

/-- C3 (amended): the status read is exactly one `process_vision_frame` step
followed by a pure projection of the resulting store — so it can mutate
state — while the transaction-history read leaves the state unchanged and is
idempotent. -/
theorem C3_status_read_runs_frame (st : ApiState) (tid : Int) (act : String)
    (coin : Bool) (t : String) :
    (get_inventory_status st tid act coin t).2 = process_vision_frame st tid act coin t ∧
    (get_inventory_status st tid act coin t).1 =
      (process_vision_frame st tid act coin t).inventory_db.map Prod.snd ∧
    (get_transaction_history st).2 = st ∧
    (get_transaction_history ((get_transaction_history st).2)).1 =
      (get_transaction_history st).1 :=
  ⟨rfl, rfl, rfl, rfl⟩

/-- A heap of item dicts: each Python dict object of the inventory state is
a cell addressed by its index; allocation appends a cell. -/
abbrev Heap := List ItemData

/-- The value of an unallocated cell (never read on valid snapshots). -/
def blankItem : ItemData := ⟨"", 0, 0, ""⟩

/-- Read of one heap cell. -/
def heapGet (h : Heap) (a : Nat) : ItemData :=
  h.getD a blankItem

/-- The dict comprehension `{id: data.copy() for id, data in
current_state.items()}` (vision_processor.py line 93) in heap form: each
item's dict is read and a fresh copy of it is allocated; the new snapshot
binds each identifier to its fresh cell. -/
def copySnapshot : Heap → List (Int × Nat) → Heap × List (Int × Nat)
  | h, [] => (h, [])
  | h, (id, a) :: rest =>
    let r := copySnapshot (h ++ [heapGet h a]) rest
    (r.1, (id, h.length) :: r.2)

/-- The update loop of `process_frame_update` in heap form: the statements
`item_data["current_stock"] = new_count` and `item_data["alert_status"] =
new_status` mutate the item's (freshly copied) cell in place. -/
def processLoopHeap (tracked_ids : List Int) (t : String) :
    Heap → List (Int × Nat) → Option Transaction → Heap × Option Transaction
  | h, [], tx => (h, tx)
  | h, (id, a) :: rest, tx =>
    let d := heapGet h a
    if observedCount tracked_ids id ≠ d.current_stock then
      let d' := applyChange tracked_ids id d
      let tx1 := if tx.isNone then some (mkTransaction tracked_ids t id d) else tx
      processLoopHeap tracked_ids t (h.set a d') rest tx1
    else
      processLoopHeap tracked_ids t h rest tx

/-- `process_frame_update` in heap form: copy every item dict of the input
snapshot, then run the update loop over the copies; returns the final heap,
the new snapshot and the transaction. -/
def process_frame_update_heap (h : Heap) (S : List (Int × Nat))
    (tracked_ids : List Int) (t : String) :
    Heap × List (Int × Nat) × Option Transaction :=
  let c := copySnapshot h S
  let r := processLoopHeap tracked_ids t c.1 c.2 none
  (r.1, c.2, r.2)

theorem copySnapshot_get_lt :
    ∀ (S : List (Int × Nat)) (h : Heap) (a : Nat), a < h.length →
      heapGet (copySnapshot h S).1 a = heapGet h a := by
  intro S
  induction S with
  | nil =>
    intro h a ha
    rfl
  | cons p rest ih =>
    intro h a ha
    obtain ⟨id, ad⟩ := p
    show heapGet (copySnapshot (h ++ [heapGet h ad]) rest).1 a = heapGet h a
    rw [ih (h ++ [heapGet h ad]) a (by simp [List.length_append]; omega)]
    unfold heapGet
    exact List.getD_append _ _ _ _ ha

theorem copySnapshot_addrs_ge :
    ∀ (S : List (Int × Nat)) (h : Heap), ∀ p ∈ (copySnapshot h S).2, h.length ≤ p.2 := by
  intro S
  induction S with
  | nil =>
    intro h p hp
    simp [copySnapshot] at hp
  | cons q rest ih =>
    intro h p hp
    obtain ⟨id, ad⟩ := q
    have hp' : p = (id, h.length) ∨ p ∈ (copySnapshot (h ++ [heapGet h ad]) rest).2 := by
      simpa [copySnapshot] using hp
    rcases hp' with rfl | hp'
    · exact le_refl _
    · have hle := ih (h ++ [heapGet h ad]) p hp'
      simp [List.length_append] at hle
      omega

theorem processLoopHeap_get_lt (O : List Int) (t : String) :
    ∀ (S' : List (Int × Nat)) (h : Heap) (tx : Option Transaction) (n : Nat),
      (∀ p ∈ S', n ≤ p.2) → ∀ a < n,
        heapGet (processLoopHeap O t h S' tx).1 a = heapGet h a := by
  intro S'
  induction S' with
  | nil =>
    intro h tx n hS a ha
    rfl
  | cons q rest ih =>
    intro h tx n hS a ha
    obtain ⟨id, ad⟩ := q
    have had : n ≤ ad := hS (id, ad) (List.mem_cons_self _ _)
    have hrest : ∀ p ∈ rest, n ≤ p.2 := fun p hp => hS p (List.mem_cons_of_mem _ hp)
    by_cases hc : observedCount O id ≠ (heapGet h ad).current_stock
    · simp only [processLoopHeap, if_pos hc]
      rw [ih _ _ n hrest a ha]
      unfold heapGet
      rw [List.getD_eq_getElem?_getD, List.getD_eq_getElem?_getD,
        List.getElem?_set_ne (by omega : ad ≠ a)]
      exact (List.getD_eq_getElem?_getD _ _ _).symm
    · simp only [processLoopHeap, if_neg hc]
      exact ih _ _ n hrest a ha

/-- C10: reconciliation does not mutate its argument snapshot — in the heap
model of the source's dict objects, every cell the input snapshot points to
holds the same item dict after `process_frame_update` as before the call:
the copies are fresh cells and all writes go to them. -/
theorem C10_input_not_mutated (h : Heap) (S : List (Int × Nat)) (O : List Int)
    (t : String) (hv : ∀ p ∈ S, p.2 < h.length) :
    ∀ p ∈ S, heapGet (process_frame_update_heap h S O t).1 p.2 = heapGet h p.2 := by
  intro p hp
  show heapGet (processLoopHeap O t (copySnapshot h S).1 (copySnapshot h S).2 none).1 p.2 =
    heapGet h p.2
  rw [processLoopHeap_get_lt O t (copySnapshot h S).2 (copySnapshot h S).1 none h.length
    (copySnapshot_addrs_ge S h) p.2 (hv p hp)]
  exact copySnapshot_get_lt S h p.2 (hv p hp)

/-- A concrete two-cell heap holding the dicts of items 1 and 2. -/
def exHeap : Heap := [⟨"Laptop Box", 2, 5, "OK"⟩, ⟨"Accessory Kit", 5, 10, "OK"⟩]

/-- The snapshot addressing `exHeap`: item 1 at cell 0, item 2 at cell 1. -/
def exHeapSnapshot : List (Int × Nat) := [(1, 0), (2, 1)]

theorem C10_witness :
    ((1 : Int), (0 : Nat)) ∈ exHeapSnapshot ∧ (0 : Nat) < exHeap.length ∧
    heapGet (process_frame_update_heap exHeap exHeapSnapshot [] "2024-05-01 10:00:00").1 0 =
      heapGet exHeap 0 :=
  ⟨by decide, by decide,
    C10_input_not_mutated exHeap exHeapSnapshot [] "2024-05-01 10:00:00"
      (by decide) (1, 0) (by decide)⟩
